import Mathlib

/-!
Verification of the vaspNestAgent control-loop core against its specification.

The repository ships documentation, a React frontend and Terraform
infrastructure; the Python backend implementing the control loop is not part
of the checked-in sources.  Components whose implementation is absent are
modelled from the specification text (each such definition carries a doc
comment starting with: Modelled from the spec).  Frontend code that is present
(the TemperatureDisplay differential classification, the calculate_backoff
helper reproduced in the design document) is embedded directly from the
source.  Temperatures, timestamps and durations are modelled as rationals,
standing in for the floating point values of the implementation.
-/

namespace VaspNestAgent

/-- A temperature reading produced by the Device Gateway.  Fields follow the
data model of the spec: ambient and target in degrees Fahrenheit, the device
identifier and the observation timestamp (seconds). -/
structure Reading where
  ambient : ℚ
  target : ℚ
  deviceId : String
  observedAt : ℚ
  deriving Repr, DecidableEq

/-- The Decision Engine output: whether to adjust, the new target and a
human readable reason. -/
structure AdjustmentDecision where
  shouldAdjust : Bool
  newTarget : ℚ
  reason : String
  deriving Repr, DecidableEq

/-- Modelled from the spec: the Decision Engine contract
decide(reading, thresholdF, stepF).  shouldAdjust is (target - ambient) <
thresholdF, evaluated regardless of sign; newTarget is target - stepF when
shouldAdjust holds and target otherwise.  The backend module implementing
this function (src/agents/orchestration.py, should_adjust_temperature and
calculate_new_target) is not among the checked-in sources; the definition
follows section 4.1 of the spec and the property test shown in the design
document. -/
def decide (reading : Reading) (thresholdF stepF : ℚ) : AdjustmentDecision :=
  if reading.target - reading.ambient < thresholdF then
    { shouldAdjust := true
      newTarget := reading.target - stepF
      reason := "differential below threshold" }
  else
    { shouldAdjust := false
      newTarget := reading.target
      reason := "differential within normal range" }

/-- The only mutable core state, owned by the Control Loop, as laid out in the
data model of the spec. -/
structure ControlState where
  lastAdjustmentAt : Option ℚ
  lastAdjustedTarget : Option ℚ
  consecutiveErrors : ℕ
  totalErrors : ℕ
  lastErrorAt : Option ℚ
  alertedForCurrentErrorEpisode : Bool
  lastNotificationTimestamps : List ℚ
  deriving Repr, DecidableEq

/-- The initial control state: no adjustment watermark, zero error counters,
no recorded notification send times. -/
def emptyControlState : ControlState :=
  { lastAdjustmentAt := none
    lastAdjustedTarget := none
    consecutiveErrors := 0
    totalErrors := 0
    lastErrorAt := none
    alertedForCurrentErrorEpisode := false
    lastNotificationTimestamps := [] }

/-- Modelled from the spec: the Cooldown Tracker contract
isInCooldown(state, now, cooldownSeconds), true when lastAdjustmentAt is set
and now - lastAdjustmentAt < cooldownSeconds.  The backend module holding
this helper is not among the checked-in sources. -/
def isInCooldown (s : ControlState) (now cooldownSeconds : ℚ) : Bool :=
  match s.lastAdjustmentAt with
  | none => false
  | some t => if now - t < cooldownSeconds then true else false

/-- Modelled from the spec: recordAdjustment(state, now) sets
lastAdjustmentAt to now, after a device write succeeds. -/
def recordAdjustment (s : ControlState) (now : ℚ) : ControlState :=
  { s with lastAdjustmentAt := some now }

/-- Configuration consumed by one control-loop cycle. -/
structure LoopConfig where
  thresholdF : ℚ
  stepF : ℚ
  cooldownSeconds : ℚ
  deriving Repr, DecidableEq

/-- The inputs of one control-loop cycle: its timestamp, the reading pulled
from the device, and whether the device write (wrapped in the Retry
Executor) would succeed if attempted. -/
structure Cycle where
  now : ℚ
  reading : Reading
  writeOk : Bool
  deriving Repr, DecidableEq

/-- Modelled from the spec: the Deciding and Adjusting stages of one cycle.
The cooldown gate is consulted before the Decision Engine adjustment path;
an adjustment is accepted only when the gate is open, the Decision Engine
fires and the device write succeeds, in which case the Cooldown Tracker
records the adjustment.  Returns the next state and whether an adjustment
was accepted. -/
def cycleStep (cfg : LoopConfig) (s : ControlState) (c : Cycle) : ControlState × Bool :=
  if isInCooldown s c.now cfg.cooldownSeconds then (s, false)
  else if (decide c.reading cfg.thresholdF cfg.stepF).shouldAdjust && c.writeOk then
    (recordAdjustment s c.now, true)
  else (s, false)

/-- The timestamps of the adjustments accepted while running a sequence of
cycles from a given state. -/
def adjustTimes (cfg : LoopConfig) : ControlState → List Cycle → List ℚ
  | _, [] => []
  | s, c :: rest =>
    if (cycleStep cfg s c).2 then c.now :: adjustTimes cfg (cycleStep cfg s c).1 rest
    else adjustTimes cfg (cycleStep cfg s c).1 rest

/-- A persisted adjustment record, per the data model of the spec. -/
structure AdjustmentRecord where
  id : String
  previousTarget : ℚ
  newTarget : ℚ
  ambientAtAdjustment : ℚ
  triggeredAt : ℚ
  notified : Bool
  deriving Repr, DecidableEq

/-- Modelled from the spec: recover(persistedSnapshot, currentDeviceTarget).
When a persisted record exists whose newTarget equals the live device
target, the cooldown watermark is seeded from the record; otherwise the
loop starts from the empty cooldown state. -/
def recover (persistedSnapshot : Option AdjustmentRecord) (currentDeviceTarget : ℚ) :
    ControlState :=
  match persistedSnapshot with
  | none => emptyControlState
  | some r =>
    if r.newTarget = currentDeviceTarget then
      { emptyControlState with
        lastAdjustmentAt := some r.triggeredAt
        lastAdjustedTarget := some r.newTarget }
    else emptyControlState

/-- The result of the Error Threshold Monitor recording an outcome: either
nothing, or a threshold alert to fire. -/
inductive AlertAction where
  | noAlert
  | fireAlert
  deriving Repr, DecidableEq

/-- Which counter the Error Threshold Monitor compares against the
threshold; the spec leaves the choice between consecutiveErrors and
totalErrors to configuration. -/
inductive ThresholdMode where
  | consecutive
  | cumulative
  deriving Repr, DecidableEq

/-- The configured counter of the Error Threshold Monitor. -/
def counterFor (mode : ThresholdMode) (s : ControlState) : ℕ :=
  match mode with
  | .consecutive => s.consecutiveErrors
  | .cumulative => s.totalErrors

/-- Modelled from the spec: the Error Threshold Monitor contract
recordOutcome(state, success).  Success resets consecutiveErrors and clears
the episode flag; failure increments consecutiveErrors and totalErrors and
fires exactly when the configured counter reaches the threshold while the
episode flag is still clear.  The backend module holding this logic is not
among the checked-in sources. -/
def recordOutcome (mode : ThresholdMode) (errorThreshold : ℕ) (s : ControlState)
    (success : Bool) : ControlState × AlertAction :=
  if success then
    ({ s with consecutiveErrors := 0, alertedForCurrentErrorEpisode := false },
      AlertAction.noAlert)
  else
    let s1 := { s with consecutiveErrors := s.consecutiveErrors + 1,
                       totalErrors := s.totalErrors + 1 }
    if errorThreshold ≤ counterFor mode s1 ∧ s1.alertedForCurrentErrorEpisode = false then
      ({ s1 with alertedForCurrentErrorEpisode := true }, AlertAction.fireAlert)
    else (s1, AlertAction.noAlert)

/-- Feed a sequence of outcomes to the Error Threshold Monitor, returning
the final state and how many FireAlert actions were produced. -/
def runMonitor (mode : ThresholdMode) (errorThreshold : ℕ) :
    ControlState → List Bool → ControlState × ℕ
  | s, [] => (s, 0)
  | s, o :: rest =>
    let r := recordOutcome mode errorThreshold s o
    let k := runMonitor mode errorThreshold r.1 rest
    (k.1, (if r.2 = AlertAction.fireAlert then 1 else 0) + k.2)

/-- Modelled from the spec: the Notification Rate Limiter eviction of send
timestamps older than the window. -/
def evictOld (timestamps : List ℚ) (now windowSeconds : ℚ) : List ℚ :=
  timestamps.filter (fun t => if now - t < windowSeconds then true else false)

/-- Modelled from the spec: the Notification Rate Limiter contract
allow(state, now, windowSeconds, maxPerWindow).  Evicts entries older than
the window, then admits and records now iff fewer than maxPerWindow send
timestamps remain.  The backend module holding this logic is not among the
checked-in sources. -/
def allow (s : ControlState) (now windowSeconds : ℚ) (maxPerWindow : ℕ) :
    ControlState × Bool :=
  let kept := evictOld s.lastNotificationTimestamps now windowSeconds
  if kept.length < maxPerWindow then
    ({ s with lastNotificationTimestamps := now :: kept }, true)
  else
    ({ s with lastNotificationTimestamps := kept }, false)

/-- The request times the Notification Rate Limiter admits while processing
a sequence of notification requests. -/
def admittedTimes (windowSeconds : ℚ) (maxPerWindow : ℕ) :
    ControlState → List ℚ → List ℚ
  | _, [] => []
  | s, now :: rest =>
    if (allow s now windowSeconds maxPerWindow).2 then
      now :: admittedTimes windowSeconds maxPerWindow
        (allow s now windowSeconds maxPerWindow).1 rest
    else
      admittedTimes windowSeconds maxPerWindow
        (allow s now windowSeconds maxPerWindow).1 rest

/-- The differential CSS class computed by the frontend TemperatureDisplay
component.  Embedded from the source:
differential < 5 then warning, else differential < 0 then danger, else
normal. -/
def differentialClass (differential : ℚ) : String :=
  if differential < 5 then "warning"
  else if differential < 0 then "danger"
  else "normal"

/-- The capped exponential delay of the backoff helper: the attempt index
here is zero-based, as in the source. -/
def backoff_delay (attempt : ℕ) (base_delay max_delay : ℚ) : ℚ :=
  min (base_delay * 2 ^ attempt) max_delay

/-- Embedded from calculate_backoff in the design document: the capped
exponential delay min(base_delay * 2 ** attempt, max_delay) plus a jitter
drawn uniformly from [0, delay * 0.1].  The random draw is modelled as an
explicit argument; theorems constrain it to that interval. -/
def calculate_backoff (attempt : ℕ) (base_delay max_delay jitter : ℚ) : ℚ :=
  backoff_delay attempt base_delay max_delay + jitter

/-- The observable behaviour of one Retry Executor run: how many attempts
were made, the sleeps performed between attempts, and the final result. -/
structure RetryTrace (E A : Type) where
  attemptsMade : ℕ
  sleeps : List ℚ
  result : Except E A

/-- Modelled from the spec: the retry loop of the Retry Executor, whose
implementation module is not among the checked-in sources.  The operation
is a function from the 1-based attempt number to that attempt~s outcome;
fuel counts the attempts still allowed after the current one.  On failure
with fuel left, the loop sleeps calculate_backoff for the just-failed
attempt (zero-based index, hence attempt - 1) and retries. -/
def executeLoop {E A : Type} (op : ℕ → Except E A) (base_delay max_delay : ℚ)
    (jitter : ℕ → ℚ) : ℕ → ℕ → RetryTrace E A
  | attempt, 0 =>
    match op attempt with
    | .ok a => ⟨1, [], .ok a⟩
    | .error e => ⟨1, [], .error e⟩
  | attempt, fuel + 1 =>
    match op attempt with
    | .ok a => ⟨1, [], .ok a⟩
    | .error _ =>
      let rest := executeLoop op base_delay max_delay jitter (attempt + 1) fuel
      ⟨rest.attemptsMade + 1,
        calculate_backoff (attempt - 1) base_delay max_delay (jitter attempt) :: rest.sleeps,
        rest.result⟩

/-- Modelled from the spec: the Retry Executor contract
execute(operation, maxAttempts, baseDelay, maxDelay), starting at attempt 1
with maxAttempts - 1 retries in reserve. -/
def execute {E A : Type} (op : ℕ → Except E A) (maxAttempts : ℕ)
    (base_delay max_delay : ℚ) (jitter : ℕ → ℚ) : RetryTrace E A :=
  executeLoop op base_delay max_delay jitter 1 (maxAttempts - 1)

/-- The loop-level bookkeeping visible at cycle boundaries: how many cycles
have run and which errors were recorded. -/
structure LoopState (E : Type) where
  cyclesCompleted : ℕ
  errorsRecorded : List E

/-- Modelled from the spec: the catch at the cycle boundary.  A cycle that
raises any error (device-read failure after retries, or an unexpected
programming error) has the error recorded; either way the cycle counts as
completed and control returns to the loop. -/
def cycleBoundary {E R : Type} (s : LoopState E) (outcome : Except E R) : LoopState E :=
  match outcome with
  | .ok _ => { s with cyclesCompleted := s.cyclesCompleted + 1 }
  | .error e =>
    { cyclesCompleted := s.cyclesCompleted + 1
      errorsRecorded := s.errorsRecorded ++ [e] }

/-- Modelled from the spec: the control loop runs every scheduled cycle,
passing each outcome through the cycle-boundary handler; no outcome makes
it terminate early. -/
def runLoop {E R : Type} : LoopState E → List (Except E R) → LoopState E
  | s, [] => s
  | s, o :: rest => runLoop (cycleBoundary s o) rest

/-- The errors carried by a sequence of cycle outcomes, in order. -/
def errorsOf {E R : Type} (outcomes : List (Except E R)) : List E :=
  outcomes.filterMap fun o =>
    match o with
    | .ok _ => none
    | .error e => some e

/-- Configuration consumed by the core, per the spec: the five validated
values plus the notification window settings. -/
structure Config where
  polling_interval : ℤ
  cooldown_period : ℤ
  temperature_threshold : ℚ
  temperature_adjustment : ℚ
  error_threshold : ℤ
  notification_rate_limit_seconds : ℤ
  notification_rate_limit_enabled : Bool
  deriving Repr, DecidableEq

/-- Modelled from the spec: start-up validation of the configuration.
Polling interval in [10, 3600] seconds, cooldown in [60, 86400] seconds,
differential threshold and adjustment step in [1.0, 20.0] degrees F, error
alert threshold at least 1. -/
def validateConfig (c : Config) : Bool :=
  if (10 ≤ c.polling_interval ∧ c.polling_interval ≤ 3600) ∧
     (60 ≤ c.cooldown_period ∧ c.cooldown_period ≤ 86400) ∧
     ((1 : ℚ) ≤ c.temperature_threshold ∧ c.temperature_threshold ≤ 20) ∧
     ((1 : ℚ) ≤ c.temperature_adjustment ∧ c.temperature_adjustment ≤ 20) ∧
     1 ≤ c.error_threshold
  then true else false

/-- Modelled from the spec: start-up validates the configuration before the
loop begins and fails fast on any invalid value; the loop is entered only
with a valid configuration, so an invalid value never surfaces at
runtime. -/
def startup {E R : Type} (c : Config) (outcomes : List (Except E R)) :
    Except String (LoopState E) :=
  if validateConfig c then
    Except.ok (runLoop { cyclesCompleted := 0, errorsRecorded := [] } outcomes)
  else Except.error "Configuration validation failed"

/-- Modelled from the spec: getAdjustmentHistory(limit).  The store appends
each AdjustmentRecord as it is created, so the most recent record is last;
the query returns the records most recent first, truncated to limit. -/
def getAdjustmentHistory (history : List AdjustmentRecord) (limit : ℕ) :
    List AdjustmentRecord :=
  history.reverse.take limit

end VaspNestAgent

namespace VaspNestAgent

/-- C1: decide returns shouldAdjust = (target - ambient) < thresholdF,
including for negative differentials (positive threshold), and newTarget is
target - stepF when shouldAdjust holds, target otherwise.  As a Lean
function over the rationals, decide is pure, deterministic and total by
construction. -/
theorem decide_spec (reading : Reading) (thresholdF stepF : ℚ) :
    ((decide reading thresholdF stepF).shouldAdjust = true ↔
      reading.target - reading.ambient < thresholdF) ∧
    (reading.target - reading.ambient < 0 → 0 < thresholdF →
      (decide reading thresholdF stepF).shouldAdjust = true) ∧
    ((decide reading thresholdF stepF).shouldAdjust = true →
      (decide reading thresholdF stepF).newTarget = reading.target - stepF) ∧
    ((decide reading thresholdF stepF).shouldAdjust = false →
      (decide reading thresholdF stepF).newTarget = reading.target) := by
  unfold decide
  by_cases h : reading.target - reading.ambient < thresholdF
  · refine ⟨by simp [h], fun _ _ => by simp [h], fun _ => by simp [h], fun hc => ?_⟩
    simp [h] at hc
  · refine ⟨by simp [h], ?_, fun hc => ?_, fun _ => by simp [h]⟩
    · intro hneg hpos
      exact absurd (lt_trans hneg hpos) h
    · simp [h] at hc

/-- C1 witness: the worked example of the spec, ambient 71, target 75,
threshold 5, step 5: adjustment fires and the new target is 70. -/
theorem decide_spec_witness :
    (decide { ambient := 71, target := 75, deviceId := "d", observedAt := 0 } 5 5).shouldAdjust
      = true ∧
    (decide { ambient := 71, target := 75, deviceId := "d", observedAt := 0 } 5 5).newTarget
      = 70 := by
  refine ⟨?_, ?_⟩
  · exact (decide_spec { ambient := 71, target := 75, deviceId := "d", observedAt := 0 } 5 5).1.mpr
      (by norm_num)
  · have h := (decide_spec { ambient := 71, target := 75, deviceId := "d", observedAt := 0 } 5 5).2.2.1
    have hs : (decide { ambient := 71, target := 75, deviceId := "d", observedAt := 0 } 5 5).shouldAdjust = true :=
      (decide_spec { ambient := 71, target := 75, deviceId := "d", observedAt := 0 } 5 5).1.mpr
        (by norm_num)
    rw [h hs]
    norm_num

/-- Every adjustment accepted after a state whose cooldown watermark is T is
accepted at a timestamp at least T + cooldownSeconds: the cooldown gate
blocks every earlier cycle and any later accepted adjustment only moves the
watermark forward. -/
theorem adjustTimes_lower_bound (cfg : LoopConfig) (hcd : 0 ≤ cfg.cooldownSeconds) :
    ∀ (cycles : List Cycle) (s : ControlState) (T : ℚ),
      s.lastAdjustmentAt = some T →
      ∀ b ∈ adjustTimes cfg s cycles, T + cfg.cooldownSeconds ≤ b := by
  intro cycles
  induction cycles with
  | nil =>
    intro s T hT b hb
    simp [adjustTimes] at hb
  | cons c rest ih =>
    intro s T hT b hb
    by_cases hcool : isInCooldown s c.now cfg.cooldownSeconds = true
    · have hstep : cycleStep cfg s c = (s, false) := by simp [cycleStep, hcool]
      rw [adjustTimes, hstep] at hb
      simp only [if_neg Bool.false_ne_true] at hb
      exact ih s T hT b hb
    · have hTle : cfg.cooldownSeconds ≤ c.now - T := by
        by_contra hlt
        push_neg at hlt
        exact hcool (by simp [isInCooldown, hT, hlt])
      by_cases hadj : ((decide c.reading cfg.thresholdF cfg.stepF).shouldAdjust && c.writeOk) = true
      · have hstep : cycleStep cfg s c = (recordAdjustment s c.now, true) := by
          simp [cycleStep, hcool, hadj]
        rw [adjustTimes, hstep] at hb
        simp only [if_pos rfl, if_true, List.mem_cons] at hb
        rcases hb with hb | hb
        · subst hb
          linarith
        · have hrec : (recordAdjustment s c.now).lastAdjustmentAt = some c.now := rfl
          have hlow := ih (recordAdjustment s c.now) c.now hrec b hb
          linarith
      · have hstep : cycleStep cfg s c = (s, false) := by
          simp [cycleStep, hcool, hadj]
        rw [adjustTimes, hstep] at hb
        simp only [if_neg Bool.false_ne_true] at hb
        exact ih s T hT b hb

/-- Accepted adjustment timestamps, in cycle order, are pairwise separated
by at least the cooldown period, from any starting state. -/
theorem adjustTimes_pairwise (cfg : LoopConfig) (hcd : 0 ≤ cfg.cooldownSeconds) :
    ∀ (cycles : List Cycle) (s : ControlState),
      (adjustTimes cfg s cycles).Pairwise (fun a b => a + cfg.cooldownSeconds ≤ b) := by
  intro cycles
  induction cycles with
  | nil => intro s; simp [adjustTimes]
  | cons c rest ih =>
    intro s
    by_cases h2 : (cycleStep cfg s c).2 = true
    · rw [adjustTimes, if_pos h2]
      have hla : (cycleStep cfg s c).1.lastAdjustmentAt = some c.now := by
        by_cases hcool : isInCooldown s c.now cfg.cooldownSeconds = true
        · simp [cycleStep, hcool] at h2
        · by_cases hadj : ((decide c.reading cfg.thresholdF cfg.stepF).shouldAdjust && c.writeOk) = true
          · simp [cycleStep, hcool, hadj, recordAdjustment]
          · simp [cycleStep, hcool, hadj] at h2
      exact List.Pairwise.cons
        (fun b hb => adjustTimes_lower_bound cfg hcd rest _ c.now hla b hb) (ih _)
    · rw [adjustTimes, if_neg h2]
      exact ih _

/-- C2: isInCooldown is true exactly when lastAdjustmentAt is set and
now - lastAdjustmentAt < cooldownSeconds; and across any sequence of
control-loop cycles, once an adjustment is accepted at time T no further
adjustment is accepted at a timestamp in [T, T + cooldownSeconds), even at
cycles where the differential condition holds. -/
theorem cooldown_spec (s : ControlState) (now cd : ℚ) (cfg : LoopConfig)
    (init : ControlState) (cycles : List Cycle) (hcd : 0 ≤ cfg.cooldownSeconds) :
    (isInCooldown s now cd = true ↔
      ∃ t, s.lastAdjustmentAt = some t ∧ now - t < cd) ∧
    (adjustTimes cfg init cycles).Pairwise (fun a b => a + cfg.cooldownSeconds ≤ b) := by
  constructor
  · cases h : s.lastAdjustmentAt with
    | none => simp [isInCooldown, h]
    | some t =>
      by_cases hlt : now - t < cd
      · simp [isInCooldown, h, hlt]
      · simp [isInCooldown, h, hlt]
  · exact adjustTimes_pairwise cfg hcd cycles init

/-- C2 witness: thirty seconds after an adjustment recorded at time 100, a
cooldown of 60 seconds is still active. -/
theorem cooldown_spec_witness :
    isInCooldown (recordAdjustment emptyControlState 100) 130 60 = true := by
  have h := (cooldown_spec (recordAdjustment emptyControlState 100) 130 60
    ⟨5, 5, 1800⟩ emptyControlState [] (by norm_num)).1
  exact h.mpr ⟨100, rfl, by norm_num⟩

/-- C6: recover seeds the cooldown watermark from the persisted record when
its newTarget matches the live device target, so a first post-restart cycle
inside the cooldown window accepts no adjustment even when the differential
condition qualifies; with no snapshot, or a diverging live target, recover
returns the empty cooldown state. -/
theorem recover_spec (r : AdjustmentRecord) (t : ℚ) (cfg : LoopConfig) (c : Cycle)
    (hc : c.now - r.triggeredAt < cfg.cooldownSeconds) :
    (recover (some r) r.newTarget).lastAdjustmentAt = some r.triggeredAt ∧
    recover none t = emptyControlState ∧
    (r.newTarget ≠ t → recover (some r) t = emptyControlState) ∧
    (cycleStep cfg (recover (some r) r.newTarget) c).2 = false := by
  refine ⟨by simp [recover], rfl, ?_, ?_⟩
  · intro hne
    simp [recover, hne]
  · have hcool : isInCooldown (recover (some r) r.newTarget) c.now cfg.cooldownSeconds = true := by
      simp [recover, isInCooldown, hc]
    simp [cycleStep, hcool]

/-- C6 witness: the restart scenario of the spec.  A persisted record with
newTarget 70 triggered at time 1000, a live device target of 70, and a
first cycle at time 1500 (cooldown 1800) with a qualifying differential
(ambient 68, target 70) and a healthy device: no adjustment is accepted. -/
theorem recover_spec_witness :
    (1500 : ℚ) - 1000 < 1800 ∧
    (cycleStep ⟨5, 5, 1800⟩
      (recover (some ⟨"r1", 75, 70, 72, 1000, true⟩) 70)
      ⟨1500, ⟨68, 70, "d", 1500⟩, true⟩).2 = false :=
  ⟨by norm_num,
    (recover_spec ⟨"r1", 75, 70, 72, 1000, true⟩ 71 ⟨5, 5, 1800⟩
      ⟨1500, ⟨68, 70, "d", 1500⟩, true⟩ (by norm_num)).2.2.2⟩

/-- Incrementing both error counters increments the configured counter by
one, whichever mode is configured. -/
theorem counterFor_incr (mode : ThresholdMode) (s : ControlState) :
    counterFor mode { s with consecutiveErrors := s.consecutiveErrors + 1,
                             totalErrors := s.totalErrors + 1 } = counterFor mode s + 1 := by
  cases mode <;> rfl

/-- Recording a success resets consecutiveErrors, clears the episode flag
and produces no alert. -/
theorem recordOutcome_success (mode : ThresholdMode) (th : ℕ) (s : ControlState) :
    recordOutcome mode th s true =
      ({ s with consecutiveErrors := 0, alertedForCurrentErrorEpisode := false },
        AlertAction.noAlert) := rfl

/-- Behaviour of recording a failure: both counters increment, FireAlert is
produced exactly when the configured counter reaches the threshold with the
episode flag clear, and the flag is set by an alert and otherwise kept. -/
theorem recordOutcome_failure_spec (mode : ThresholdMode) (th : ℕ) (s : ControlState) :
    ((recordOutcome mode th s false).2 = AlertAction.fireAlert ↔
      (th ≤ counterFor mode s + 1 ∧ s.alertedForCurrentErrorEpisode = false)) ∧
    (recordOutcome mode th s false).1.consecutiveErrors = s.consecutiveErrors + 1 ∧
    (recordOutcome mode th s false).1.totalErrors = s.totalErrors + 1 ∧
    counterFor mode (recordOutcome mode th s false).1 = counterFor mode s + 1 ∧
    ((recordOutcome mode th s false).2 = AlertAction.fireAlert →
      (recordOutcome mode th s false).1.alertedForCurrentErrorEpisode = true) ∧
    ((recordOutcome mode th s false).2 = AlertAction.noAlert →
      (recordOutcome mode th s false).1.alertedForCurrentErrorEpisode =
        s.alertedForCurrentErrorEpisode) := by
  cases mode with
  | consecutive =>
    by_cases hcond : th ≤ s.consecutiveErrors + 1 ∧ s.alertedForCurrentErrorEpisode = false
    · simp [recordOutcome, counterFor, hcond]
    · simp [recordOutcome, counterFor, hcond]
  | cumulative =>
    by_cases hcond : th ≤ s.totalErrors + 1 ∧ s.alertedForCurrentErrorEpisode = false
    · simp [recordOutcome, counterFor, hcond]
    · simp [recordOutcome, counterFor, hcond]

/-- While the episode flag is set, a run of failures produces no further
alert. -/
theorem runMonitor_failures_of_alerted (mode : ThresholdMode) (th : ℕ) :
    ∀ (n : ℕ) (s : ControlState), s.alertedForCurrentErrorEpisode = true →
      (runMonitor mode th s (List.replicate n false)).2 = 0 := by
  intro n
  induction n with
  | zero =>
    intro s hs
    simp [runMonitor]
  | succ n ih =>
    intro s hs
    rw [List.replicate_succ, runMonitor]
    have hnofire : (recordOutcome mode th s false).2 = AlertAction.noAlert := by
      cases h2 : (recordOutcome mode th s false).2 with
      | noAlert => rfl
      | fireAlert =>
        have := ((recordOutcome_failure_spec mode th s).1.mp h2).2
        rw [hs] at this
        exact absurd this (by simp)
    have halert : (recordOutcome mode th s false).1.alertedForCurrentErrorEpisode = true := by
      rw [(recordOutcome_failure_spec mode th s).2.2.2.2.2 hnofire, hs]
    simp [hnofire]
    exact ih _ halert

/-- Starting from a clear episode flag, a contiguous run of n failures
produces exactly one alert when the configured counter reaches the
threshold during the run, and none otherwise. -/
theorem runMonitor_episode (mode : ThresholdMode) (th : ℕ) :
    ∀ (n : ℕ) (s : ControlState), s.alertedForCurrentErrorEpisode = false →
      (runMonitor mode th s (List.replicate n false)).2 =
        if 1 ≤ n ∧ th ≤ counterFor mode s + n then 1 else 0 := by
  intro n
  induction n with
  | zero =>
    intro s hs
    simp [runMonitor]
  | succ n ih =>
    intro s hs
    rw [List.replicate_succ, runMonitor]
    by_cases hfire : th ≤ counterFor mode s + 1
    · have h2 : (recordOutcome mode th s false).2 = AlertAction.fireAlert :=
        (recordOutcome_failure_spec mode th s).1.mpr ⟨hfire, hs⟩
      have halert : (recordOutcome mode th s false).1.alertedForCurrentErrorEpisode = true :=
        (recordOutcome_failure_spec mode th s).2.2.2.2.1 h2
      have hrest := runMonitor_failures_of_alerted mode th n _ halert
      have hcross : th ≤ counterFor mode s + (n + 1) := by omega
      simp [h2, hrest, hcross]
    · have h2 : (recordOutcome mode th s false).2 = AlertAction.noAlert := by
        cases h2 : (recordOutcome mode th s false).2 with
        | noAlert => rfl
        | fireAlert =>
          exact absurd ((recordOutcome_failure_spec mode th s).1.mp h2).1 hfire
      have halert : (recordOutcome mode th s false).1.alertedForCurrentErrorEpisode = false := by
        rw [(recordOutcome_failure_spec mode th s).2.2.2.2.2 h2, hs]
      have hcount := (recordOutcome_failure_spec mode th s).2.2.2.1
      have hrest := ih (recordOutcome mode th s false).1 halert
      rw [hcount] at hrest
      simp [h2, hrest]
      split_ifs <;> omega

/-- The state after consuming the head outcome is the state the rest of the
sequence is processed from. -/
theorem runMonitor_cons_fst (mode : ThresholdMode) (th : ℕ) (s : ControlState)
    (o : Bool) (l : List Bool) :
    (runMonitor mode th s (o :: l)).1 =
      (runMonitor mode th (recordOutcome mode th s o).1 l).1 := rfl

/-- The alert count of a sequence is the alert of its head outcome plus the
count of the rest. -/
theorem runMonitor_cons_snd (mode : ThresholdMode) (th : ℕ) (s : ControlState)
    (o : Bool) (l : List Bool) :
    (runMonitor mode th s (o :: l)).2 =
      (if (recordOutcome mode th s o).2 = AlertAction.fireAlert then 1 else 0) +
        (runMonitor mode th (recordOutcome mode th s o).1 l).2 := rfl

/-- Alert counts add over concatenated outcome sequences, the final state
being threaded through. -/
theorem runMonitor_append (mode : ThresholdMode) (th : ℕ) :
    ∀ (l1 l2 : List Bool) (s : ControlState),
      (runMonitor mode th s (l1 ++ l2)).2 =
        (runMonitor mode th s l1).2 +
          (runMonitor mode th (runMonitor mode th s l1).1 l2).2 ∧
      (runMonitor mode th s (l1 ++ l2)).1 =
        (runMonitor mode th (runMonitor mode th s l1).1 l2).1 := by
  intro l1
  induction l1 with
  | nil =>
    intro l2 s
    simp [runMonitor]
  | cons o rest ih =>
    intro l2 s
    refine ⟨?_, ?_⟩
    · simp only [List.cons_append, runMonitor_cons_snd, runMonitor_cons_fst]
      rw [(ih l2 _).1]
      omega
    · simp only [List.cons_append, runMonitor_cons_fst]
      exact (ih l2 _).2

/-- C4: on success the monitor resets consecutiveErrors and clears the
episode flag; on failure both counters increment and FireAlert is returned
exactly when the configured counter reaches the threshold with the flag
still clear; a contiguous failure run from a clear flag fires exactly once
when it crosses the threshold, and a success followed by a second breach
fires exactly once more. -/
theorem errorThresholdMonitor_spec (mode : ThresholdMode) (th : ℕ) (s : ControlState)
    (n m : ℕ) (hs : s.alertedForCurrentErrorEpisode = false) (hn : 1 ≤ n)
    (hcross : th ≤ counterFor mode s + n) (hm : 1 ≤ m)
    (hcross2 : th ≤ counterFor mode
      (runMonitor mode th s (List.replicate n false ++ [true])).1 + m) :
    recordOutcome mode th s true =
      ({ s with consecutiveErrors := 0, alertedForCurrentErrorEpisode := false },
        AlertAction.noAlert) ∧
    (recordOutcome mode th s false).1.consecutiveErrors = s.consecutiveErrors + 1 ∧
    (recordOutcome mode th s false).1.totalErrors = s.totalErrors + 1 ∧
    ((recordOutcome mode th s false).2 = AlertAction.fireAlert ↔
      (th ≤ counterFor mode s + 1 ∧ s.alertedForCurrentErrorEpisode = false)) ∧
    (runMonitor mode th s (List.replicate n false)).2 = 1 ∧
    (runMonitor mode th s
      ((List.replicate n false ++ [true]) ++ List.replicate m false)).2 = 2 := by
  refine ⟨recordOutcome_success mode th s,
    (recordOutcome_failure_spec mode th s).2.1,
    (recordOutcome_failure_spec mode th s).2.2.1,
    (recordOutcome_failure_spec mode th s).1, ?_, ?_⟩
  · rw [runMonitor_episode mode th n s hs]
    simp [hn, hcross]
  · have hsplit := (runMonitor_append mode th (List.replicate n false ++ [true])
      (List.replicate m false) s).1
    rw [hsplit]
    have h1 := (runMonitor_append mode th (List.replicate n false) [true] s).1
    have h1s := (runMonitor_append mode th (List.replicate n false) [true] s).2
    have hepi1 : (runMonitor mode th s (List.replicate n false)).2 = 1 := by
      rw [runMonitor_episode mode th n s hs]
      simp [hn, hcross]
    have htrue : ∀ s2 : ControlState, runMonitor mode th s2 [true] =
        ((recordOutcome mode th s2 true).1, 0) := by
      intro s2
      rw [runMonitor, runMonitor]
      simp [recordOutcome_success]
    have hmidAlert :
        (runMonitor mode th s (List.replicate n false ++ [true])).1.alertedForCurrentErrorEpisode
          = false := by
      rw [h1s, htrue]
      rfl
    have hepi2 : (runMonitor mode th
        (runMonitor mode th s (List.replicate n false ++ [true])).1
        (List.replicate m false)).2 = 1 := by
      rw [runMonitor_episode mode th m _ hmidAlert]
      simp [hm, hcross2]
    rw [h1, hepi1, htrue, hepi2]
    simp

/-- C4 witness: threshold 3, consecutive mode.  Three failures, a success,
then three more failures fire exactly twice. -/
theorem errorThresholdMonitor_spec_witness :
    (runMonitor ThresholdMode.consecutive 3 emptyControlState
      ((List.replicate 3 false ++ [true]) ++ List.replicate 3 false)).2 = 2 :=
  (errorThresholdMonitor_spec ThresholdMode.consecutive 3 emptyControlState 3 3
    rfl (by norm_num) (by decide) (by norm_num) (by decide)).2.2.2.2.2

/-- Eviction keeps exactly the timestamps still inside the window. -/
theorem mem_evictOld (timestamps : List ℚ) (now w t : ℚ) :
    t ∈ evictOld timestamps now w ↔ t ∈ timestamps ∧ now - t < w := by
  unfold evictOld
  rw [List.mem_filter]
  by_cases h : now - t < w <;> simp [h]

/-- Every admitted notification time is one of the request times. -/
theorem admitted_subset (w : ℚ) (k : ℕ) :
    ∀ (reqs : List ℚ) (s : ControlState), ∀ b ∈ admittedTimes w k s reqs, b ∈ reqs := by
  intro reqs
  induction reqs with
  | nil =>
    intro s b hb
    simp [admittedTimes] at hb
  | cons c rest ih =>
    intro s b hb
    rw [admittedTimes] at hb
    by_cases h : (allow s c w k).2 = true
    · rw [if_pos h] at hb
      rcases List.mem_cons.mp hb with hb | hb
      · exact hb ▸ List.mem_cons_self _ _
      · exact List.mem_cons_of_mem _ (ih _ b hb)
    · rw [if_neg h] at hb
      exact List.mem_cons_of_mem _ (ih _ b hb)

/-- With maxPerWindow 1, a recorded send at time a blocks every admission
until the window has elapsed: all later admitted times are at least
a + windowSeconds, for nondecreasing request times. -/
theorem admitted_lower_bound (w : ℚ) :
    ∀ (reqs : List ℚ) (s : ControlState) (a : ℚ),
      a ∈ s.lastNotificationTimestamps →
      (∀ r ∈ reqs, a ≤ r) →
      reqs.Pairwise (· ≤ ·) →
      ∀ b ∈ admittedTimes w 1 s reqs, a + w ≤ b := by
  intro reqs
  induction reqs with
  | nil =>
    intro s a _ _ _ b hb
    simp [admittedTimes] at hb
  | cons c rest ih =>
    intro s a ha hle hp b hb
    by_cases hwin : c - a < w
    · have hmem : a ∈ evictOld s.lastNotificationTimestamps c w :=
        (mem_evictOld _ _ _ _).mpr ⟨ha, hwin⟩
      have hlen : ¬ (evictOld s.lastNotificationTimestamps c w).length < 1 := by
        have hpos : 0 < (evictOld s.lastNotificationTimestamps c w).length :=
          List.length_pos.mpr (List.ne_nil_of_mem hmem)
        omega
      have hdeny : (allow s c w 1).2 = false := by
        simp [allow, hlen]
      have hstate : (allow s c w 1).1.lastNotificationTimestamps =
          evictOld s.lastNotificationTimestamps c w := by
        simp [allow, hlen]
      rw [admittedTimes, if_neg (by rw [hdeny]; exact Bool.false_ne_true)] at hb
      refine ih _ a (hstate ▸ hmem) (fun r hr => hle r (List.mem_cons_of_mem _ hr))
        (List.pairwise_cons.mp hp).2 b hb
    · have hac : a + w ≤ c := by
        push_neg at hwin
        linarith
      have hbmem := admitted_subset w 1 (c :: rest) s b hb
      rcases List.mem_cons.mp hbmem with hb1 | hb1
      · rw [hb1]
        exact hac
      · have hcb : c ≤ b := (List.pairwise_cons.mp hp).1 b hb1
        linarith

/-- With maxPerWindow 1, the admitted notification times are pairwise
separated by at least the window, from any starting state. -/
theorem admitted_pairwise (w : ℚ) :
    ∀ (reqs : List ℚ) (s : ControlState), reqs.Pairwise (· ≤ ·) →
      (admittedTimes w 1 s reqs).Pairwise (fun a b => a + w ≤ b) := by
  intro reqs
  induction reqs with
  | nil =>
    intro s _
    simp [admittedTimes]
  | cons c rest ih =>
    intro s hp
    rw [admittedTimes]
    by_cases h : (allow s c w 1).2 = true
    · rw [if_pos h]
      refine List.Pairwise.cons ?_ (ih _ (List.pairwise_cons.mp hp).2)
      intro b hb
      have hc : c ∈ (allow s c w 1).1.lastNotificationTimestamps := by
        by_cases hlen : (evictOld s.lastNotificationTimestamps c w).length < 1
        · simp [allow, hlen]
        · exfalso
          simp [allow, hlen] at h
      exact admitted_lower_bound w rest _ c hc
        (fun r hr => (List.pairwise_cons.mp hp).1 r hr)
        (List.pairwise_cons.mp hp).2 b hb
    · rw [if_neg h]
      exact ih _ (List.pairwise_cons.mp hp).2

/-- C5: allow evicts the timestamps older than the window, then admits and
records now exactly when fewer than maxPerWindow remain; with the default
maxPerWindow of 1, the admitted notification times over any nondecreasing
request sequence are separated by at least windowSeconds, so any rolling
window of that length contains at most one admitted notification. -/
theorem rateLimiter_spec (s : ControlState) (now w : ℚ) (k : ℕ) (t : ℚ)
    (reqs : List ℚ) (init : ControlState) (hp : reqs.Pairwise (· ≤ ·)) :
    (t ∈ evictOld s.lastNotificationTimestamps now w ↔
      t ∈ s.lastNotificationTimestamps ∧ now - t < w) ∧
    ((allow s now w k).2 = true ↔
      (evictOld s.lastNotificationTimestamps now w).length < k) ∧
    ((allow s now w k).2 = true →
      (allow s now w k).1.lastNotificationTimestamps =
        now :: evictOld s.lastNotificationTimestamps now w) ∧
    ((allow s now w k).2 = false →
      (allow s now w k).1.lastNotificationTimestamps =
        evictOld s.lastNotificationTimestamps now w) ∧
    (admittedTimes w 1 init reqs).Pairwise (fun a b => a + w ≤ b) := by
  refine ⟨mem_evictOld _ _ _ _, ?_, ?_, ?_, admitted_pairwise w reqs init hp⟩
  · by_cases hlen : (evictOld s.lastNotificationTimestamps now w).length < k <;>
      simp [allow, hlen]
  · intro h
    by_cases hlen : (evictOld s.lastNotificationTimestamps now w).length < k
    · simp [allow, hlen]
    · simp [allow, hlen] at h
  · intro h
    by_cases hlen : (evictOld s.lastNotificationTimestamps now w).length < k
    · simp [allow, hlen] at h
    · simp [allow, hlen]

/-- C5 witness: requests at times 0, 100 and 4000 with a one-hour window.
The admitted times are separated by at least 3600 seconds; in particular
the request at time 100 is rejected. -/
theorem rateLimiter_spec_witness :
    ([(0 : ℚ), 100, 4000].Pairwise (· ≤ ·)) ∧
    (admittedTimes 3600 1 emptyControlState [0, 100, 4000]).Pairwise
      (fun a b => a + 3600 ≤ b) := by
  have hp : ([(0 : ℚ), 100, 4000]).Pairwise (· ≤ ·) := by
    norm_num [List.pairwise_cons]
  exact ⟨hp, (rateLimiter_spec emptyControlState 0 3600 1 0 [0, 100, 4000]
    emptyControlState hp).2.2.2.2⟩

/-- Behaviour of the retry loop from any starting attempt number: between 1
and fuel + 1 attempts are made, the sleeps follow the capped exponential
backoff schedule, and when every allowed attempt fails the loop makes all
fuel + 1 attempts and surfaces the last attempt~s error. -/
theorem executeLoop_spec {E A : Type} (op : ℕ → Except E A) (base_delay max_delay : ℚ)
    (jitter : ℕ → ℚ) :
    ∀ (fuel attempt : ℕ), 1 ≤ attempt →
      (1 ≤ (executeLoop op base_delay max_delay jitter attempt fuel).attemptsMade ∧
       (executeLoop op base_delay max_delay jitter attempt fuel).attemptsMade ≤ fuel + 1) ∧
      (executeLoop op base_delay max_delay jitter attempt fuel).sleeps =
        (List.range
            ((executeLoop op base_delay max_delay jitter attempt fuel).attemptsMade - 1)).map
          (fun i => calculate_backoff (attempt - 1 + i) base_delay max_delay
            (jitter (attempt + i))) ∧
      ((∀ k, attempt ≤ k → k ≤ attempt + fuel → ∃ e, op k = Except.error e) →
        (executeLoop op base_delay max_delay jitter attempt fuel).attemptsMade = fuel + 1 ∧
        (executeLoop op base_delay max_delay jitter attempt fuel).result =
          op (attempt + fuel)) := by
  intro fuel
  induction fuel with
  | zero =>
    intro attempt hatt
    cases hop : op attempt with
    | ok a =>
      have he : executeLoop op base_delay max_delay jitter attempt 0 = ⟨1, [], .ok a⟩ := by
        simp [executeLoop, hop]
      rw [he]
      dsimp only
      refine ⟨⟨le_refl 1, le_refl 1⟩, by simp, ?_⟩
      intro hall
      obtain ⟨e, he2⟩ := hall attempt le_rfl (by omega)
      simp [hop] at he2
    | error e =>
      have he : executeLoop op base_delay max_delay jitter attempt 0 = ⟨1, [], .error e⟩ := by
        simp [executeLoop, hop]
      rw [he]
      dsimp only
      refine ⟨⟨le_refl 1, le_refl 1⟩, by simp, ?_⟩
      intro _
      refine ⟨rfl, ?_⟩
      rw [Nat.add_zero, hop]
  | succ fuel ih =>
    intro attempt hatt
    cases hop : op attempt with
    | ok a =>
      have he : executeLoop op base_delay max_delay jitter attempt (fuel + 1) =
          ⟨1, [], .ok a⟩ := by
        simp [executeLoop, hop]
      rw [he]
      dsimp only
      refine ⟨⟨le_refl 1, by omega⟩, by simp, ?_⟩
      intro hall
      obtain ⟨e, he2⟩ := hall attempt le_rfl (by omega)
      simp [hop] at he2
    | error e =>
      have he : executeLoop op base_delay max_delay jitter attempt (fuel + 1) =
          ⟨(executeLoop op base_delay max_delay jitter (attempt + 1) fuel).attemptsMade + 1,
            calculate_backoff (attempt - 1) base_delay max_delay (jitter attempt) ::
              (executeLoop op base_delay max_delay jitter (attempt + 1) fuel).sleeps,
            (executeLoop op base_delay max_delay jitter (attempt + 1) fuel).result⟩ := by
        simp [executeLoop, hop]
      obtain ⟨⟨ihlo, ihhi⟩, ihsleeps, ihall⟩ := ih (attempt + 1) (by omega)
      rw [he]
      dsimp only
      refine ⟨⟨by omega, by omega⟩, ?_, ?_⟩
      · obtain ⟨m, hm⟩ : ∃ m,
            (executeLoop op base_delay max_delay jitter (attempt + 1) fuel).attemptsMade
              = m + 1 := ⟨_, (Nat.succ_pred_eq_of_pos ihlo).symm⟩
        rw [ihsleeps, hm]
        simp only [Nat.add_sub_cancel, List.range_succ_eq_map, List.map_cons, List.map_map]
        refine congrArg₂ _ ?_ ?_
        · simp
        · refine List.map_congr_left ?_
          intro i _
          have h0 : attempt + i = attempt - 1 + (i + 1) := by omega
          have h1 : attempt + 1 - 1 + i = attempt - 1 + (i + 1) := by omega
          have h2 : attempt + 1 + i = attempt + (i + 1) := by omega
          simp only [Function.comp_apply, h1, h2, h0]
      · intro hall
        have hall1 : ∀ k, attempt + 1 ≤ k → k ≤ attempt + 1 + fuel →
            ∃ e2, op k = Except.error e2 := by
          intro k hk1 hk2
          exact hall k (by omega) (by omega)
        obtain ⟨ham, hres⟩ := ihall hall1
        refine ⟨by omega, ?_⟩
        rw [hres]
        exact congrArg op (by omega)

/-- C3: for every operation and failure pattern the Retry Executor makes
between 1 and maxAttempts attempts; before attempt n + 1 it sleeps the
capped exponential delay min(baseDelay * 2 ^ (n - 1), maxDelay) for the
just-failed attempt n plus the uniform jitter in [0, 10 percent of that
delay]; and when all maxAttempts attempts fail it returns the last error. -/
theorem retryExecutor_spec {E A : Type} (op : ℕ → Except E A) (maxAttempts : ℕ)
    (base_delay max_delay : ℚ) (jitter : ℕ → ℚ) (hmax : 1 ≤ maxAttempts)
    (hj : ∀ k, 0 ≤ jitter k ∧
      jitter k ≤ backoff_delay (k - 1) base_delay max_delay / 10) :
    (1 ≤ (execute op maxAttempts base_delay max_delay jitter).attemptsMade ∧
      (execute op maxAttempts base_delay max_delay jitter).attemptsMade ≤ maxAttempts) ∧
    (execute op maxAttempts base_delay max_delay jitter).sleeps =
      (List.range
          ((execute op maxAttempts base_delay max_delay jitter).attemptsMade - 1)).map
        (fun i => backoff_delay i base_delay max_delay + jitter (i + 1)) ∧
    (∀ x ∈ (execute op maxAttempts base_delay max_delay jitter).sleeps, ∃ i,
      x = backoff_delay i base_delay max_delay + jitter (i + 1) ∧
      backoff_delay i base_delay max_delay ≤ x ∧
      x ≤ backoff_delay i base_delay max_delay +
        backoff_delay i base_delay max_delay / 10) ∧
    ((∀ k, 1 ≤ k → k ≤ maxAttempts → ∃ e, op k = Except.error e) →
      (execute op maxAttempts base_delay max_delay jitter).attemptsMade = maxAttempts ∧
      (execute op maxAttempts base_delay max_delay jitter).result = op maxAttempts) := by
  obtain ⟨⟨hlo, hhi⟩, hsleeps, hall⟩ :=
    executeLoop_spec op base_delay max_delay jitter (maxAttempts - 1) 1 le_rfl
  have hfuel : maxAttempts - 1 + 1 = maxAttempts := by omega
  have hsleeps2 : (execute op maxAttempts base_delay max_delay jitter).sleeps =
      (List.range
          ((execute op maxAttempts base_delay max_delay jitter).attemptsMade - 1)).map
        (fun i => backoff_delay i base_delay max_delay + jitter (i + 1)) := by
    unfold execute
    rw [hsleeps]
    refine List.map_congr_left ?_
    intro i _
    simp [calculate_backoff, Nat.add_comm]
  refine ⟨⟨hlo, by unfold execute; omega⟩, hsleeps2, ?_, ?_⟩
  · intro x hx
    rw [hsleeps2] at hx
    obtain ⟨i, _, hxi⟩ := List.mem_map.mp hx
    refine ⟨i, hxi.symm, ?_, ?_⟩
    · have := (hj (i + 1)).1
      rw [← hxi]
      linarith
    · have h2 := (hj (i + 1)).2
      have h3 : (i + 1) - 1 = i := by omega
      rw [h3] at h2
      rw [← hxi]
      linarith
  · intro hfail
    have hfail1 : ∀ k, 1 ≤ k → k ≤ 1 + (maxAttempts - 1) → ∃ e, op k = Except.error e := by
      intro k hk1 hk2
      exact hfail k hk1 (by omega)
    obtain ⟨ham, hres⟩ := hall hfail1
    unfold execute
    refine ⟨by omega, ?_⟩
    rw [hres]
    exact congrArg op (by omega)

/-- C3 witness: an operation that always fails, three attempts, base delay
1, cap 60, zero jitter: exactly three attempts are made and the last error
is returned. -/
theorem retryExecutor_spec_witness :
    (execute (fun _ => (Except.error "boom" : Except String Unit)) 3 1 60
      (fun _ => 0)).attemptsMade = 3 ∧
    (execute (fun _ => (Except.error "boom" : Except String Unit)) 3 1 60
      (fun _ => 0)).result = Except.error "boom" := by
  have hj : ∀ k, (0 : ℚ) ≤ 0 ∧ (0 : ℚ) ≤ backoff_delay (k - 1) 1 60 / 10 := by
    intro k
    refine ⟨le_refl 0, ?_⟩
    have h1 : (0 : ℚ) ≤ backoff_delay (k - 1) 1 60 := by
      unfold backoff_delay
      exact le_min (by positivity) (by norm_num)
    linarith
  have h := retryExecutor_spec (fun _ => (Except.error "boom" : Except String Unit)) 3 1 60
    (fun _ => 0) (by norm_num) hj
  exact h.2.2.2 (fun k _ _ => ⟨"boom", rfl⟩)

/-- The loop completes every scheduled cycle and records every error the
cycles raise, from any starting bookkeeping state. -/
theorem runLoop_progress {E R : Type} :
    ∀ (outcomes : List (Except E R)) (s : LoopState E),
      (runLoop s outcomes).cyclesCompleted = s.cyclesCompleted + outcomes.length ∧
      (runLoop s outcomes).errorsRecorded = s.errorsRecorded ++ errorsOf outcomes := by
  intro outcomes
  induction outcomes with
  | nil =>
    intro s
    simp [runLoop, errorsOf]
  | cons o rest ih =>
    intro s
    cases o with
    | ok r =>
      refine ⟨?_, ?_⟩
      · rw [runLoop, (ih (cycleBoundary s (.ok r))).1]
        simp [cycleBoundary]
        omega
      · rw [runLoop, (ih (cycleBoundary s (.ok r))).2]
        simp [cycleBoundary, errorsOf]
    | error e =>
      refine ⟨?_, ?_⟩
      · rw [runLoop, (ih (cycleBoundary s (.error e))).1]
        simp [cycleBoundary]
        omega
      · rw [runLoop, (ih (cycleBoundary s (.error e))).2]
        simp [cycleBoundary, errorsOf]

/-- C7: every error arising in a cycle is caught at the cycle boundary and
recorded, the cycle still counts as completed, and the loop goes on to run
every remaining cycle: no single failing cycle terminates the process. -/
theorem cycleErrorHandling_spec {E R : Type} (outcomes : List (Except E R))
    (s : LoopState E) :
    (∀ e : E, cycleBoundary s (Except.error e : Except E R) =
      { cyclesCompleted := s.cyclesCompleted + 1
        errorsRecorded := s.errorsRecorded ++ [e] }) ∧
    (runLoop s outcomes).cyclesCompleted = s.cyclesCompleted + outcomes.length ∧
    (runLoop s outcomes).errorsRecorded = s.errorsRecorded ++ errorsOf outcomes :=
  ⟨fun _ => rfl, (runLoop_progress outcomes s).1, (runLoop_progress outcomes s).2⟩

/-- C8: validateConfig accepts exactly the configurations inside the
documented ranges, and start-up enters the loop only on acceptance,
otherwise failing fast before any cycle runs. -/
theorem configValidation_spec {E R : Type} (c : Config) (outcomes : List (Except E R)) :
    (validateConfig c = true ↔
      ((10 ≤ c.polling_interval ∧ c.polling_interval ≤ 3600) ∧
       (60 ≤ c.cooldown_period ∧ c.cooldown_period ≤ 86400) ∧
       ((1 : ℚ) ≤ c.temperature_threshold ∧ c.temperature_threshold ≤ 20) ∧
       ((1 : ℚ) ≤ c.temperature_adjustment ∧ c.temperature_adjustment ≤ 20) ∧
       1 ≤ c.error_threshold)) ∧
    (validateConfig c = false →
      startup c outcomes =
        (Except.error "Configuration validation failed" : Except String (LoopState E))) ∧
    (validateConfig c = true →
      startup c outcomes =
        Except.ok (runLoop { cyclesCompleted := 0, errorsRecorded := [] } outcomes)) := by
  refine ⟨?_, ?_, ?_⟩
  · unfold validateConfig
    by_cases h : (10 ≤ c.polling_interval ∧ c.polling_interval ≤ 3600) ∧
      (60 ≤ c.cooldown_period ∧ c.cooldown_period ≤ 86400) ∧
      ((1 : ℚ) ≤ c.temperature_threshold ∧ c.temperature_threshold ≤ 20) ∧
      ((1 : ℚ) ≤ c.temperature_adjustment ∧ c.temperature_adjustment ≤ 20) ∧
      1 ≤ c.error_threshold
    · simp [h]
    · simp [h]
  · intro h
    unfold startup
    rw [h]
    simp
  · intro h
    unfold startup
    rw [h]
    simp

/-- C8 witness: a polling interval of 5 seconds is below the minimum of 10,
so validation rejects the configuration and start-up fails before the loop
begins. -/
theorem configValidation_spec_witness :
    validateConfig ⟨5, 1800, 5, 5, 10, 3600, true⟩ = false ∧
    startup (E := String) (R := Unit) ⟨5, 1800, 5, 5, 10, 3600, true⟩ [] =
      Except.error "Configuration validation failed" := by
  have hv : validateConfig ⟨5, 1800, 5, 5, 10, 3600, true⟩ = false := by
    have hnot : ¬ (10 ≤ (5 : ℤ)) := by norm_num
    unfold validateConfig
    simp [hnot]
  exact ⟨hv, (configValidation_spec ⟨5, 1800, 5, 5, 10, 3600, true⟩ []).2.1 hv⟩

/-- C9: for a history appended in chronological order, getAdjustmentHistory
returns records ordered most recent first: the timestamps are nonincreasing
along the result, index 0 is the most recently appended record, and the
length is capped by the limit. -/
theorem adjustmentHistory_spec (history : List AdjustmentRecord) (limit : ℕ)
    (hchron : history.Pairwise (fun a b => a.triggeredAt ≤ b.triggeredAt)) :
    (getAdjustmentHistory history limit).Pairwise
      (fun a b => b.triggeredAt ≤ a.triggeredAt) ∧
    (1 ≤ limit → (getAdjustmentHistory history limit).head? = history.getLast?) ∧
    (getAdjustmentHistory history limit).length = min limit history.length := by
  refine ⟨?_, ?_, ?_⟩
  · have hrev : history.reverse.Pairwise (fun a b => b.triggeredAt ≤ a.triggeredAt) :=
      List.pairwise_reverse.mpr hchron
    exact List.Pairwise.sublist (List.take_sublist _ _) hrev
  · intro hl
    cases hrev : history.reverse with
    | nil =>
      have hnil : history = [] := List.reverse_eq_nil_iff.mp hrev
      simp [getAdjustmentHistory, hrev, hnil]
    | cons x t =>
      obtain ⟨n, hn⟩ : ∃ n, limit = n + 1 := ⟨limit - 1, by omega⟩
      rw [getAdjustmentHistory, hrev, hn, List.take_succ_cons,
        List.getLast?_eq_head?_reverse, hrev]
      rfl
  · simp [getAdjustmentHistory, List.length_take]

/-- C9 witness: for two records appended at times 100 then 200, the first
element of the returned history is the record triggered at 200. -/
theorem adjustmentHistory_spec_witness :
    (getAdjustmentHistory
      [⟨"a", 75, 70, 72, 100, true⟩, ⟨"b", 70, 65, 68, 200, false⟩] 10).head? =
      some ⟨"b", 70, 65, 68, 200, false⟩ := by
  have hchron : ([⟨"a", 75, 70, 72, 100, true⟩,
      (⟨"b", 70, 65, 68, 200, false⟩ : AdjustmentRecord)]).Pairwise
      (fun a b => a.triggeredAt ≤ b.triggeredAt) := by
    norm_num [List.pairwise_cons]
  have h := (adjustmentHistory_spec
    [⟨"a", 75, 70, 72, 100, true⟩, ⟨"b", 70, 65, 68, 200, false⟩] 10 hchron).2.1
    (by norm_num)
  rw [h]
  rfl

/-- C10: the danger branch of TemperatureDisplay is unreachable: the class is
warning whenever the differential is below 5 (hence for every negative
differential) and normal otherwise; it is never danger. -/
theorem differentialClass_danger_unreachable (d : ℚ) :
    differentialClass d ≠ "danger" ∧
    (d < 5 → differentialClass d = "warning") ∧
    (¬ d < 5 → differentialClass d = "normal") ∧
    (d < 0 → differentialClass d = "warning") := by
  unfold differentialClass
  by_cases h : d < 5
  · simp [h]
  · have h0 : ¬ d < 0 := fun hc => h (lt_trans hc (by norm_num))
    simp [h, h0]

/-- C10 witness: an overshot room (differential -3) is classified warning,
not danger. -/
theorem differentialClass_danger_unreachable_witness :
    differentialClass (-3) = "warning" :=
  (differentialClass_danger_unreachable (-3)).2.1 (by norm_num)

end VaspNestAgent
